import Mathlib

/-!
Verification of the snake game-state engine in `src/main.c` (sdl-snake).

Shallow embedding conventions:
* `s32` grid coordinates are `Int`; `u32` bounds/scores are `Nat` (all values
  involved are far below 2^31, so no wrap-around modelling is needed).
* The C body is a singly linked list of `snake_piece`, chained tail -> head
  (each piece's `next` points towards the head; `snake->head` is the most
  recently pushed piece).  We represent the body as a `List Vec2` whose FIRST
  element is the snake's head (most recent) and whose LAST element is the
  snake's tail (oldest).  `push_head` is `cons`, `pop_tail` is `dropLast`,
  and the C collision / food scans are plain membership tests over the same
  set of cells (the scan order is irrelevant to their results).
* Randomness: `uniform_u32 bound` outcomes are passed in as explicit
  parameters (assumed `< bound` where the claims need it); the resampling
  loop of `next_food_pos` consumes an explicit list of sampled candidate
  cells and returns `none` when the list is exhausted (the C loop would
  keep sampling; `none` models non-termination/no result).
-/

/-- Mirrors `struct vec2 { s32 x, y; }` (src/main.c:36). -/
structure Vec2 where
  x : Int
  y : Int
deriving DecidableEq, Repr

/-- Toroidal wrap of a single coordinate, as done per axis inside
`move_in_bounded_direction` (src/main.c:48-65): add the delta, then apply a
single correction if the result left `[0, bound)`. -/
def wrap_coord (c d : Int) (bound : Nat) : Int :=
  let c' := c + d
  if c' < 0 then (bound : Int) + c'
  else if c' ≥ (bound : Int) then c' - (bound : Int)
  else c'

/-- Mirrors `move_in_bounded_direction` (src/main.c:48-65): the wrap applied
independently to the x and y axes. -/
def move_in_bounded_direction (pos dir : Vec2) (bound_x bound_y : Nat) : Vec2 :=
  ⟨wrap_coord pos.x dir.x bound_x, wrap_coord pos.y dir.y bound_y⟩

def DIRECTION_UP : Vec2 := ⟨0, -1⟩
def DIRECTION_DOWN : Vec2 := ⟨0, 1⟩
def DIRECTION_LEFT : Vec2 := ⟨-1, 0⟩
def DIRECTION_RIGHT : Vec2 := ⟨1, 0⟩

/-- Mirrors the `directions` array (src/main.c:82-84). -/
def directions : List Vec2 :=
  [DIRECTION_UP, DIRECTION_DOWN, DIRECTION_LEFT, DIRECTION_RIGHT]

/-- Mirrors `struct snake` (src/main.c:86-99); the head/tail pointers are
subsumed by the `body` list (head = first element, tail = last element). -/
structure Snake where
  body : List Vec2
  direction : Vec2
  bound_x : Nat
  bound_y : Nat
  food_pos : Vec2
  score : Nat
  died : Bool
deriving DecidableEq, Repr

/-- The tail-direction choice of `init_snake` (src/main.c:110-122): the
direction opposite the initial movement direction (the final `else` branch is
`assert(false)` in C; we return `DIRECTION_UP` as an unreachable default). -/
def tail_direction_of (dir : Vec2) : Vec2 :=
  if dir = DIRECTION_UP then DIRECTION_DOWN
  else if dir = DIRECTION_DOWN then DIRECTION_UP
  else if dir = DIRECTION_LEFT then DIRECTION_RIGHT
  else if dir = DIRECTION_RIGHT then DIRECTION_LEFT
  else DIRECTION_UP

/-- The body built by the loop of `init_snake` (src/main.c:125-143), in our
head-first list order: the first constructed (random) cell is the head, and
each later cell is one `tail_direction` step beyond the previous tail. -/
def init_body_chain (p tdir : Vec2) (bound_x bound_y : Nat) : Nat → List Vec2
  | 0 => []
  | Nat.succ n =>
      p :: init_body_chain (move_in_bounded_direction p tdir bound_x bound_y) tdir bound_x bound_y n

/-- Mirrors `init_snake` (src/main.c:101-151) with the five `uniform_u32`
outcomes as parameters: `dirIdx` (bound 4), the random start cell `(sx, sy)`
(bounds 20, 20) and the food sample `(fx, fy)` (bounds 20, 20).  Note the food
is the RAW sample from lines 145-146; `init_snake` does not call
`next_food_pos`.  `GRID_WIDTH = GRID_HEIGHT = 20`, `INITIAL_SNAKE_LEN = 10`. -/
def init_snake (dirIdx sx sy fx fy : Nat) : Snake :=
  let dir := directions.getD dirIdx DIRECTION_UP
  let tdir := tail_direction_of dir
  { body := init_body_chain ⟨(sx : Int), (sy : Int)⟩ tdir 20 20 10
    direction := dir
    bound_x := 20
    bound_y := 20
    food_pos := ⟨(fx : Int), (fy : Int)⟩
    score := 0
    died := false }

/-- Mirrors `next_food_pos` (src/main.c:153-178).  The C routine repeatedly
samples a candidate cell and scans the whole body; a hit sets `pos_taken` and
breaks out of the scan, which makes the outer do-while resample a fresh
candidate.  Here `samples` is the stream of sampled candidates; `none` models
the loop running out of samples (the C loop would keep sampling forever). -/
def next_food_pos (body : List Vec2) : List Vec2 → Option Vec2
  | [] => none
  | c :: rest => if c ∈ body then next_food_pos body rest else some c

/-- Mirrors `move_snake` (src/main.c:180-220).  The new head is computed from
the current head and direction; if it collides with any body cell the snake
dies and nothing else changes; otherwise the head is pushed, food is eaten
(score +1, food resampled over the body including the new head) when the new
head sits on it, and the tail is popped only when no food was eaten.
`samples` feeds `next_food_pos`; an empty body (impossible in reachable
states) or an exhausted sample stream yields `none`. -/
def move_snake (s : Snake) (samples : List Vec2) : Option Snake :=
  match s.body with
  | [] => none
  | hd :: _ =>
      let new_head := move_in_bounded_direction hd s.direction s.bound_x s.bound_y
      if new_head ∈ s.body then
        some { s with died := true }
      else
        let body1 := new_head :: s.body
        if new_head = s.food_pos then
          match next_food_pos body1 samples with
          | none => none
          | some f => some { s with body := body1, score := s.score + 1, food_pos := f }
        else
          some { s with body := body1.dropLast }

/-- The states reachable by the engine: `init_snake` with in-range random
outcomes, and any number of `move_snake` ticks taken while alive (after
`died` the main loop returns and never steps again, src/main.c:430-433). -/
inductive Reachable : Snake → Prop where
  | init (dirIdx sx sy fx fy : Nat) (h1 : dirIdx < 4) (h2 : sx < 20) (h3 : sy < 20)
      (h4 : fx < 20) (h5 : fy < 20) : Reachable (init_snake dirIdx sx sy fx fy)
  | step (s s' : Snake) (samples : List Vec2) (hr : Reachable s) (hd : s.died = false)
      (hs : move_snake s samples = some s') : Reachable s'

/-- Mirrors one evaluation of the frame pacer (src/main.c:424-442): when not
paused and the accumulated milliseconds exceed `target_ms = 50`, subtract 50
once and perform exactly one `move_snake`; otherwise do nothing.  The result
is the new accumulator and the number of `move_snake` invocations made by
this evaluation.  The C accumulator is an `f64`; the values the claims are
about (multiples of small integers) are exact in both `f64` and `Rat`, so we
model the accumulator as `Rat`. -/
def pacer_eval (paused : Bool) (acc : Rat) : Rat × Nat :=
  if paused = false ∧ 50 < acc then (acc - 50, 1) else (acc, 0)

/-- The four arrow keys handled by the event loop (src/main.c:380-410). -/
inductive Key where
  | up
  | down
  | left
  | right
deriving DecidableEq, Repr

/-- The direction a key requests. -/
def dir_of_key : Key → Vec2
  | Key.up => DIRECTION_UP
  | Key.down => DIRECTION_DOWN
  | Key.left => DIRECTION_LEFT
  | Key.right => DIRECTION_RIGHT

/-- Mirrors the direction-change handling of the event loop
(src/main.c:380-410).  The state is `(moved_since_last_dir_change, direction)`.
A request is applied only when the gate is set and the current direction is
not the exact reverse of the request (checked per axis, e.g. `SDL_SCANCODE_UP`
requires `snake.direction.y != 1`); applying it clears the gate and overwrites
both axes of the direction. -/
def apply_key (st : Bool × Vec2) (k : Key) : Bool × Vec2 :=
  match k with
  | Key.up => if st.1 = true ∧ st.2.y ≠ 1 then (false, ⟨0, -1⟩) else st
  | Key.down => if st.1 = true ∧ st.2.y ≠ -1 then (false, ⟨0, 1⟩) else st
  | Key.left => if st.1 = true ∧ st.2.x ≠ 1 then (false, ⟨-1, 0⟩) else st
  | Key.right => if st.1 = true ∧ st.2.x ≠ -1 then (false, ⟨1, 0⟩) else st

/-- Number of requests in the stream that are accepted (consume the gate)
when processed left to right from state `st`. -/
def accepted_count (st : Bool × Vec2) : List Key → Nat
  | [] => 0
  | k :: ks =>
      (if st.1 = true ∧ (apply_key st k).1 = false then 1 else 0) +
        accepted_count (apply_key st k) ks

/- ### Helper lemmas about the wrap function -/

theorem wrap_coord_correct (c d : Int) (b : Nat) (hb : 1 ≤ b)
    (hc0 : 0 ≤ c) (hcb : c < (b : Int)) (hd : d = -1 ∨ d = 0 ∨ d = 1) :
    wrap_coord c d b = (c + d) % (b : Int) ∧
      0 ≤ wrap_coord c d b ∧ wrap_coord c d b < (b : Int) := by
  have hb' : (0 : Int) < (b : Int) := by exact_mod_cast hb
  unfold wrap_coord
  by_cases h1 : c + d < 0
  · have he : c + d = -(1 : Int) := by omega
    simp only [if_pos h1]
    refine ⟨?_, by omega, by omega⟩
    rw [show (b : Int) + (c + d) = c + d + (b : Int) by ring, ← Int.add_mul_emod_self_left (c + d) (b : Int) 1]
    rw [Int.emod_eq_of_lt (by omega) (by omega)]
    ring_nf
  · by_cases h2 : c + d ≥ (b : Int)
    · have he : c + d = (b : Int) := by omega
      simp only [if_neg h1, if_pos h2]
      refine ⟨?_, by omega, by omega⟩
      rw [he]
      simp [Int.emod_self]
    · simp only [if_neg h1, if_neg h2]
      exact ⟨(Int.emod_eq_of_lt (by omega) (by omega)).symm, by omega, by omega⟩

/-- C7: for all bounds `b ≥ 1`, coordinates in `[0, b)` on each axis, and
per-axis deltas in `{-1, 0, 1}`, `move_in_bounded_direction` returns on each
axis a coordinate in `[0, b)` equal to `(c + delta) mod b`. -/
theorem wrap_correct (pos dir : Vec2) (bound_x bound_y : Nat)
    (hbx : 1 ≤ bound_x) (hby : 1 ≤ bound_y)
    (hx0 : 0 ≤ pos.x) (hxb : pos.x < (bound_x : Int))
    (hy0 : 0 ≤ pos.y) (hyb : pos.y < (bound_y : Int))
    (hdx : dir.x = -1 ∨ dir.x = 0 ∨ dir.x = 1)
    (hdy : dir.y = -1 ∨ dir.y = 0 ∨ dir.y = 1) :
    ((move_in_bounded_direction pos dir bound_x bound_y).x = (pos.x + dir.x) % (bound_x : Int) ∧
      0 ≤ (move_in_bounded_direction pos dir bound_x bound_y).x ∧
      (move_in_bounded_direction pos dir bound_x bound_y).x < (bound_x : Int)) ∧
    ((move_in_bounded_direction pos dir bound_x bound_y).y = (pos.y + dir.y) % (bound_y : Int) ∧
      0 ≤ (move_in_bounded_direction pos dir bound_x bound_y).y ∧
      (move_in_bounded_direction pos dir bound_x bound_y).y < (bound_y : Int)) := by
  exact ⟨wrap_coord_correct pos.x dir.x bound_x hbx hx0 hxb hdx,
    wrap_coord_correct pos.y dir.y bound_y hby hy0 hyb hdy⟩

/-- Witness for C7 at a concrete input: grid bound 20, coordinate 0 moving by
-1 wraps to 19 = (0 - 1) mod 20. -/
theorem wrap_correct_witness :
    ((move_in_bounded_direction ⟨0, 5⟩ ⟨-1, 0⟩ 20 20).x = ((0 : Int) + -1) % (20 : Int) ∧
      0 ≤ (move_in_bounded_direction ⟨0, 5⟩ ⟨-1, 0⟩ 20 20).x ∧
      (move_in_bounded_direction ⟨0, 5⟩ ⟨-1, 0⟩ 20 20).x < (20 : Int)) ∧
    ((move_in_bounded_direction ⟨0, 5⟩ ⟨-1, 0⟩ 20 20).y = ((5 : Int) + 0) % (20 : Int) ∧
      0 ≤ (move_in_bounded_direction ⟨0, 5⟩ ⟨-1, 0⟩ 20 20).y ∧
      (move_in_bounded_direction ⟨0, 5⟩ ⟨-1, 0⟩ 20 20).y < (20 : Int)) :=
  wrap_correct ⟨0, 5⟩ ⟨-1, 0⟩ 20 20 (by decide) (by decide) (by decide) (by decide)
    (by decide) (by decide) (by decide) (by decide)

/- ### Helper lemmas about the initial body -/

theorem init_body_chain_length (tdir : Vec2) (bound_x bound_y : Nat) :
    ∀ (n : Nat) (p : Vec2), (init_body_chain p tdir bound_x bound_y n).length = n := by
  intro n
  induction n with
  | zero => intro p; rfl
  | succ m ih => intro p; simp [init_body_chain, ih]

theorem emod_add_left_cancel (a d n : Int) : (a % n + d) % n = (a + d) % n := by
  conv_rhs => rw [Int.add_emod]
  rw [Int.add_emod (a % n) d, Int.emod_emod_of_dvd _ dvd_rfl]

/-- The cells of the initial body: starting cell plus `k` tail-direction
steps, each coordinate reduced mod the bound. -/
theorem chain_cells (dx dy : Int) (b : Nat) (hb : 1 ≤ b)
    (hdx : dx = -1 ∨ dx = 0 ∨ dx = 1)
    (hdy : dy = -1 ∨ dy = 0 ∨ dy = 1) :
    ∀ (n : Nat) (x y : Int), 0 ≤ x → x < (b : Int) → 0 ≤ y → y < (b : Int) →
      init_body_chain ⟨x, y⟩ ⟨dx, dy⟩ b b n =
        (List.range n).map
          (fun k => ⟨(x + (k : Int) * dx) % (b : Int), (y + (k : Int) * dy) % (b : Int)⟩) := by
  intro n
  induction n with
  | zero => intro x y _ _ _ _; rfl
  | succ m ih =>
    intro x y hx0 hxb hy0 hyb
    have hmx := wrap_coord_correct x dx b hb hx0 hxb hdx
    have hmy := wrap_coord_correct y dy b hb hy0 hyb hdy
    have hmove : move_in_bounded_direction ⟨x, y⟩ ⟨dx, dy⟩ b b =
        ⟨(x + dx) % (b : Int), (y + dy) % (b : Int)⟩ := by
      show (⟨wrap_coord x dx b, wrap_coord y dy b⟩ : Vec2) = _
      rw [hmx.1, hmy.1]
    have hstep := ih ((x + dx) % (b : Int)) ((y + dy) % (b : Int))
      (hmx.1 ▸ hmx.2.1) (hmx.1 ▸ hmx.2.2) (hmy.1 ▸ hmy.2.1) (hmy.1 ▸ hmy.2.2)
    rw [init_body_chain, hmove, hstep, List.range_succ_eq_map, List.map_cons, List.map_map]
    refine congrArg₂ _ ?_ ?_
    · have h0 : ((0 : Nat) : Int) = 0 := rfl
      rw [Vec2.mk.injEq]
      constructor
      · rw [h0, zero_mul, add_zero, Int.emod_eq_of_lt hx0 hxb]
      · rw [h0, zero_mul, add_zero, Int.emod_eq_of_lt hy0 hyb]
    · refine List.map_congr_left ?_
      intro k _
      rw [Function.comp_apply, Vec2.mk.injEq]
      constructor
      · rw [emod_add_left_cancel]
        congr 1
        push_cast
        ring
      · rw [emod_add_left_cancel]
        congr 1
        push_cast
        ring

theorem tail_direction_cases :
    (tail_direction_of (directions.getD 0 DIRECTION_UP) = ⟨0, 1⟩) ∧
    (tail_direction_of (directions.getD 1 DIRECTION_UP) = ⟨0, -1⟩) ∧
    (tail_direction_of (directions.getD 2 DIRECTION_UP) = ⟨1, 0⟩) ∧
    (tail_direction_of (directions.getD 3 DIRECTION_UP) = ⟨-1, 0⟩) := by
  decide

theorem init_body_nodup :
    ∀ d : Nat, d < 4 → ∀ x : Nat, x < 20 → ∀ y : Nat, y < 20 →
      (init_body_chain ⟨(x : Int), (y : Int)⟩
        (tail_direction_of (directions.getD d DIRECTION_UP)) 20 20 10).Nodup := by
  intro d hd x hx y hy
  have hx0 : (0 : Int) ≤ (x : Int) := Int.natCast_nonneg x
  have hy0 : (0 : Int) ≤ (y : Int) := Int.natCast_nonneg y
  have hxb : (x : Int) < ((20 : Nat) : Int) := by exact_mod_cast hx
  have hyb : (y : Int) < ((20 : Nat) : Int) := by exact_mod_cast hy
  interval_cases d
  · rw [tail_direction_cases.1,
      chain_cells 0 1 20 (by norm_num) (by right; left; rfl) (by right; right; rfl)
        10 (x : Int) (y : Int) hx0 hxb hy0 hyb]
    refine List.Nodup.map_on ?_ (List.nodup_range 10)
    intro a ha c hc hfac
    rw [List.mem_range] at ha hc
    simp only [Vec2.mk.injEq] at hfac
    omega
  · rw [tail_direction_cases.2.1,
      chain_cells 0 (-1) 20 (by norm_num) (by right; left; rfl) (by left; rfl)
        10 (x : Int) (y : Int) hx0 hxb hy0 hyb]
    refine List.Nodup.map_on ?_ (List.nodup_range 10)
    intro a ha c hc hfac
    rw [List.mem_range] at ha hc
    simp only [Vec2.mk.injEq] at hfac
    omega
  · rw [tail_direction_cases.2.2.1,
      chain_cells 1 0 20 (by norm_num) (by right; right; rfl) (by right; left; rfl)
        10 (x : Int) (y : Int) hx0 hxb hy0 hyb]
    refine List.Nodup.map_on ?_ (List.nodup_range 10)
    intro a ha c hc hfac
    rw [List.mem_range] at ha hc
    simp only [Vec2.mk.injEq] at hfac
    omega
  · rw [tail_direction_cases.2.2.2,
      chain_cells (-1) 0 20 (by norm_num) (by left; rfl) (by right; left; rfl)
        10 (x : Int) (y : Int) hx0 hxb hy0 hyb]
    refine List.Nodup.map_on ?_ (List.nodup_range 10)
    intro a ha c hc hfac
    rw [List.mem_range] at ha hc
    simp only [Vec2.mk.injEq] at hfac
    omega

/- ### Helper lemmas about move_snake -/

theorem move_snake_nil {s : Snake} (samples : List Vec2) (h : s.body = []) :
    move_snake s samples = none := by
  unfold move_snake
  rw [h]

theorem move_snake_cons {s : Snake} {samples : List Vec2} {hd : Vec2} {tl : List Vec2}
    (hb : s.body = hd :: tl) :
    move_snake s samples =
      (if move_in_bounded_direction hd s.direction s.bound_x s.bound_y ∈ hd :: tl then
        some { s with died := true }
      else if move_in_bounded_direction hd s.direction s.bound_x s.bound_y = s.food_pos then
        match next_food_pos
            (move_in_bounded_direction hd s.direction s.bound_x s.bound_y :: hd :: tl) samples with
        | none => none
        | some f =>
            some { s with
                    body := move_in_bounded_direction hd s.direction s.bound_x s.bound_y :: hd :: tl,
                    score := s.score + 1, food_pos := f }
      else
        some { s with
                body := (move_in_bounded_direction hd s.direction s.bound_x s.bound_y
                  :: hd :: tl).dropLast }) := by
  unfold move_snake
  rw [hb]

/-- Complete case analysis of a successful `move_snake`: the body was
nonempty, and either (1) the tentative head collided and only `died` changed,
or (2) the head was pushed onto the food, the score grew and the food was
resampled, or (3) the head was pushed and the tail popped. -/
theorem move_snake_trichotomy {s s' : Snake} {samples : List Vec2}
    (hs : move_snake s samples = some s') :
    ∃ hd tl, s.body = hd :: tl ∧
      ((move_in_bounded_direction hd s.direction s.bound_x s.bound_y ∈ hd :: tl ∧
        s' = { s with died := true }) ∨
       (move_in_bounded_direction hd s.direction s.bound_x s.bound_y ∉ hd :: tl ∧
        move_in_bounded_direction hd s.direction s.bound_x s.bound_y = s.food_pos ∧
        ∃ f, next_food_pos
            (move_in_bounded_direction hd s.direction s.bound_x s.bound_y :: hd :: tl) samples =
              some f ∧
          s' = { s with
                  body := move_in_bounded_direction hd s.direction s.bound_x s.bound_y :: hd :: tl,
                  score := s.score + 1, food_pos := f }) ∨
       (move_in_bounded_direction hd s.direction s.bound_x s.bound_y ∉ hd :: tl ∧
        move_in_bounded_direction hd s.direction s.bound_x s.bound_y ≠ s.food_pos ∧
        s' = { s with
                body := (move_in_bounded_direction hd s.direction s.bound_x s.bound_y
                  :: hd :: tl).dropLast })) := by
  cases hb : s.body with
  | nil => rw [move_snake_nil samples hb] at hs; exact Option.noConfusion hs
  | cons hd tl =>
    refine ⟨hd, tl, rfl, ?_⟩
    rw [move_snake_cons hb, hb] at hs
    by_cases hcol : move_in_bounded_direction hd s.direction s.bound_x s.bound_y ∈ hd :: tl
    · rw [if_pos hcol] at hs
      exact Or.inl ⟨hcol, (Option.some.inj hs).symm⟩
    · rw [if_neg hcol] at hs
      by_cases hfood : move_in_bounded_direction hd s.direction s.bound_x s.bound_y = s.food_pos
      · rw [if_pos hfood] at hs
        cases hnf : next_food_pos
            (move_in_bounded_direction hd s.direction s.bound_x s.bound_y :: hd :: tl) samples with
        | none => rw [hnf] at hs; exact Option.noConfusion hs
        | some f =>
          rw [hnf] at hs
          exact Or.inr (Or.inl ⟨hcol, hfood, f, rfl, (Option.some.inj hs).symm⟩)
      · rw [if_neg hfood] at hs
        exact Or.inr (Or.inr ⟨hcol, hfood, (Option.some.inj hs).symm⟩)

theorem step_nodup {s s' : Snake} {samples : List Vec2}
    (h : s.body.Nodup) (hs : move_snake s samples = some s') : s'.body.Nodup := by
  obtain ⟨hd, tl, hb, hcases⟩ := move_snake_trichotomy hs
  rw [hb] at h
  rcases hcases with ⟨-, rfl⟩ | ⟨hcol, -, f, -, rfl⟩ | ⟨hcol, -, rfl⟩
  · rw [hb]
    exact h
  · exact List.nodup_cons.mpr ⟨hcol, h⟩
  · exact List.Nodup.sublist (List.dropLast_sublist _) (List.nodup_cons.mpr ⟨hcol, h⟩)

theorem step_length_score {s s' : Snake} {samples : List Vec2}
    (hs : move_snake s samples = some s') :
    (s'.body.length = s.body.length ∧ s'.score = s.score) ∨
    (s'.body.length = s.body.length + 1 ∧ s'.score = s.score + 1) := by
  obtain ⟨hd, tl, hb, hcases⟩ := move_snake_trichotomy hs
  rcases hcases with ⟨-, rfl⟩ | ⟨-, -, f, -, rfl⟩ | ⟨-, -, rfl⟩
  · exact Or.inl ⟨rfl, rfl⟩
  · refine Or.inr ⟨?_, rfl⟩
    show (move_in_bounded_direction hd s.direction s.bound_x s.bound_y :: hd :: tl).length =
      s.body.length + 1
    rw [hb]
    rfl
  · refine Or.inl ⟨?_, rfl⟩
    show ((move_in_bounded_direction hd s.direction s.bound_x s.bound_y
      :: hd :: tl).dropLast).length = s.body.length
    rw [List.length_dropLast, hb]
    rfl

theorem step_died_unchanged {s s' : Snake} {samples : List Vec2}
    (hdied : s.died = false) (hs : move_snake s samples = some s') (h' : s'.died = true) :
    s'.body = s.body ∧ s'.score = s.score ∧ s'.food_pos = s.food_pos := by
  obtain ⟨hd, tl, hb, hcases⟩ := move_snake_trichotomy hs
  rcases hcases with ⟨-, rfl⟩ | ⟨-, -, f, -, rfl⟩ | ⟨-, -, rfl⟩
  · exact ⟨rfl, rfl, rfl⟩
  · exfalso
    have hsd : s.died = true := h'
    rw [hdied] at hsd
    exact Bool.noConfusion hsd
  · exfalso
    have hsd : s.died = true := h'
    rw [hdied] at hsd
    exact Bool.noConfusion hsd

theorem reachable_nodup : ∀ s : Snake, Reachable s → s.body.Nodup := by
  intro s h
  induction h with
  | init dirIdx sx sy fx fy h1 h2 h3 h4 h5 =>
    exact init_body_nodup dirIdx h1 sx h2 sy h3
  | step s s' samples hr hdied hs ih => exact step_nodup ih hs

theorem reachable_length : ∀ s : Snake, Reachable s → s.body.length = 10 + s.score := by
  intro s h
  induction h with
  | init dirIdx sx sy fx fy h1 h2 h3 h4 h5 =>
    show (init_body_chain _ _ 20 20 10).length = 10 + 0
    rw [init_body_chain_length]
  | step s s' samples hr hdied hs ih =>
    rcases step_length_score hs with ⟨hl, hsc⟩ | ⟨hl, hsc⟩
    · rw [hl, hsc, ih]
    · rw [hl, hsc, ih]
      omega

/- ### Helper lemmas about the direction-change throttle -/

theorem apply_key_gate_false (d : Vec2) (k : Key) : apply_key (false, d) k = (false, d) := by
  cases k <;> simp [apply_key]

theorem apply_key_of_gate_true (d : Vec2) (k : Key) :
    (apply_key (true, d) k).1 = false ∨ apply_key (true, d) k = (true, d) := by
  cases k <;> unfold apply_key <;> dsimp only <;> split
  all_goals first
    | exact Or.inl rfl
    | exact Or.inr rfl

theorem accepted_count_of_gate_false :
    ∀ (keys : List Key) (st : Bool × Vec2), st.1 = false → accepted_count st keys = 0 := by
  intro keys
  induction keys with
  | nil => intro st h; rfl
  | cons k ks ih =>
    intro st h
    obtain ⟨b, d⟩ := st
    dsimp only at h
    subst h
    rw [accepted_count, apply_key_gate_false]
    simp [ih (false, d) rfl]

theorem accepted_count_le_one :
    ∀ (keys : List Key) (d : Vec2), accepted_count (true, d) keys ≤ 1 := by
  intro keys
  induction keys with
  | nil => intro d; exact Nat.zero_le 1
  | cons k ks ih =>
    intro d
    rw [accepted_count]
    rcases apply_key_of_gate_true d k with hfalse | hsame
    · have hrest : accepted_count (apply_key (true, d) k) ks = 0 := by
        exact accepted_count_of_gate_false ks _ hfalse
      rw [hrest]
      split <;> omega
    · rw [hsame]
      have hzero : (if (true, d).1 = true ∧ (true, d).1 = false then 1 else 0) = 0 := by simp
      rw [hzero, Nat.zero_add]
      exact ih d

/- ### Claim theorems -/

/-- C1: in every reachable game state the cells of the Body are pairwise
distinct (this covers all states up to and including the one where `died`
becomes true), and at the tick in which `died` becomes true the Body is left
unmodified from its last valid state.  The initial body built by `init_snake`
(a straight 10-cell line on the 20x20 toroidal grid) satisfies this and every
`move_snake` preserves it. -/
theorem self_distinctness_invariant :
    (∀ s : Snake, Reachable s → s.body.Nodup) ∧
    (∀ (s : Snake) (samples : List Vec2) (s' : Snake), s.died = false →
      move_snake s samples = some s' → s'.died = true → s'.body = s.body) := by
  constructor
  · exact reachable_nodup
  · intro s samples s' hdied hs h'
    exact (step_died_unchanged hdied hs h').1

/-- Witness for C1: the initial state with direction outcome 0 and all cell
samples 0 is reachable and its body has pairwise distinct cells. -/
theorem self_distinctness_invariant_witness :
    Reachable (init_snake 0 0 0 0 0) ∧ (init_snake 0 0 0 0 0).body.Nodup :=
  ⟨Reachable.init 0 0 0 0 0 (by decide) (by decide) (by decide) (by decide) (by decide),
    self_distinctness_invariant.1 (init_snake 0 0 0 0 0)
      (Reachable.init 0 0 0 0 0 (by decide) (by decide) (by decide) (by decide) (by decide))⟩

/-- C2: if the new head computed by `move_snake` equals any existing body
cell, the step returns with `died = true` and the body, score and food
position all unchanged (the tentative head is discarded; neither the push nor
the tail pop of the normal path happens). -/
theorem death_on_collision (s : Snake) (samples : List Vec2) (hd : Vec2) (tl : List Vec2)
    (hb : s.body = hd :: tl)
    (hcol : move_in_bounded_direction hd s.direction s.bound_x s.bound_y ∈ s.body) :
    ∃ s', move_snake s samples = some s' ∧ s'.died = true ∧
      s'.body = s.body ∧ s'.score = s.score ∧ s'.food_pos = s.food_pos := by
  refine ⟨{ s with died := true }, ?_, rfl, rfl, rfl, rfl⟩
  rw [move_snake_cons hb]
  rw [if_pos (by rw [← hb]; exact hcol)]

/-- Witness for C2: a two-cell snake moving right into its own second cell
dies with body, score and food untouched. -/
theorem death_on_collision_witness :
    ∃ s', move_snake ⟨[⟨0, 0⟩, ⟨1, 0⟩], ⟨1, 0⟩, 20, 20, ⟨5, 5⟩, 0, false⟩ [] = some s' ∧
      s'.died = true ∧
      s'.body = (⟨[⟨0, 0⟩, ⟨1, 0⟩], ⟨1, 0⟩, 20, 20, ⟨5, 5⟩, 0, false⟩ : Snake).body ∧
      s'.score = (⟨[⟨0, 0⟩, ⟨1, 0⟩], ⟨1, 0⟩, 20, 20, ⟨5, 5⟩, 0, false⟩ : Snake).score ∧
      s'.food_pos = (⟨[⟨0, 0⟩, ⟨1, 0⟩], ⟨1, 0⟩, 20, 20, ⟨5, 5⟩, 0, false⟩ : Snake).food_pos :=
  death_on_collision ⟨[⟨0, 0⟩, ⟨1, 0⟩], ⟨1, 0⟩, 20, 20, ⟨5, 5⟩, 0, false⟩ [] ⟨0, 0⟩ [⟨1, 0⟩]
    rfl (by decide)

/-- C3: on every non-death step, if the new head equals the food cell the
body length grows by exactly one and the score by exactly one (no tail pop);
otherwise both the body length and the score are unchanged (one head pushed,
one tail popped). -/
theorem step_length_on_food (s : Snake) (samples : List Vec2) (s' : Snake) (hd : Vec2)
    (tl : List Vec2) (hb : s.body = hd :: tl)
    (hnc : move_in_bounded_direction hd s.direction s.bound_x s.bound_y ∉ s.body)
    (hs : move_snake s samples = some s') :
    (move_in_bounded_direction hd s.direction s.bound_x s.bound_y = s.food_pos →
      s'.body.length = s.body.length + 1 ∧ s'.score = s.score + 1) ∧
    (move_in_bounded_direction hd s.direction s.bound_x s.bound_y ≠ s.food_pos →
      s'.body.length = s.body.length ∧ s'.score = s.score) := by
  obtain ⟨hd2, tl2, hb2, hcases⟩ := move_snake_trichotomy hs
  have hhd : hd2 = hd ∧ tl2 = tl := by
    have := hb.symm.trans hb2
    exact ⟨(List.cons.injEq _ _ _ _ ▸ this).1.symm, (List.cons.injEq _ _ _ _ ▸ this).2.symm⟩
  obtain ⟨rfl, rfl⟩ := hhd
  rcases hcases with ⟨hcol, -⟩ | ⟨-, hfood, f, -, rfl⟩ | ⟨-, hfood, rfl⟩
  · exact absurd (hb ▸ hcol) hnc
  · constructor
    · intro _
      constructor
      · show (move_in_bounded_direction hd2 s.direction s.bound_x s.bound_y
          :: hd2 :: tl2).length = s.body.length + 1
        rw [hb]
        rfl
      · rfl
    · intro hne
      exact absurd hfood hne
  · constructor
    · intro heq
      exact absurd heq hfood
    · intro _
      constructor
      · show ((move_in_bounded_direction hd2 s.direction s.bound_x s.bound_y
          :: hd2 :: tl2).dropLast).length = s.body.length
        rw [List.length_dropLast, hb]
        rfl
      · rfl

/-- Witness for C3: a two-cell snake moving right onto the food grows to
length three and score one. -/
theorem step_length_on_food_witness :
    (move_in_bounded_direction ⟨2, 1⟩ (⟨[⟨2, 1⟩, ⟨1, 1⟩], ⟨1, 0⟩, 20, 20, ⟨3, 1⟩, 0,
        false⟩ : Snake).direction 20 20 =
      (⟨[⟨2, 1⟩, ⟨1, 1⟩], ⟨1, 0⟩, 20, 20, ⟨3, 1⟩, 0, false⟩ : Snake).food_pos →
      (⟨[⟨3, 1⟩, ⟨2, 1⟩, ⟨1, 1⟩], ⟨1, 0⟩, 20, 20, ⟨5, 5⟩, 1, false⟩ : Snake).body.length =
        (⟨[⟨2, 1⟩, ⟨1, 1⟩], ⟨1, 0⟩, 20, 20, ⟨3, 1⟩, 0, false⟩ : Snake).body.length + 1 ∧
      (⟨[⟨3, 1⟩, ⟨2, 1⟩, ⟨1, 1⟩], ⟨1, 0⟩, 20, 20, ⟨5, 5⟩, 1, false⟩ : Snake).score =
        (⟨[⟨2, 1⟩, ⟨1, 1⟩], ⟨1, 0⟩, 20, 20, ⟨3, 1⟩, 0, false⟩ : Snake).score + 1) ∧
    (move_in_bounded_direction ⟨2, 1⟩ (⟨[⟨2, 1⟩, ⟨1, 1⟩], ⟨1, 0⟩, 20, 20, ⟨3, 1⟩, 0,
        false⟩ : Snake).direction 20 20 ≠
      (⟨[⟨2, 1⟩, ⟨1, 1⟩], ⟨1, 0⟩, 20, 20, ⟨3, 1⟩, 0, false⟩ : Snake).food_pos →
      (⟨[⟨3, 1⟩, ⟨2, 1⟩, ⟨1, 1⟩], ⟨1, 0⟩, 20, 20, ⟨5, 5⟩, 1, false⟩ : Snake).body.length =
        (⟨[⟨2, 1⟩, ⟨1, 1⟩], ⟨1, 0⟩, 20, 20, ⟨3, 1⟩, 0, false⟩ : Snake).body.length ∧
      (⟨[⟨3, 1⟩, ⟨2, 1⟩, ⟨1, 1⟩], ⟨1, 0⟩, 20, 20, ⟨5, 5⟩, 1, false⟩ : Snake).score =
        (⟨[⟨2, 1⟩, ⟨1, 1⟩], ⟨1, 0⟩, 20, 20, ⟨3, 1⟩, 0, false⟩ : Snake).score) :=
  step_length_on_food ⟨[⟨2, 1⟩, ⟨1, 1⟩], ⟨1, 0⟩, 20, 20, ⟨3, 1⟩, 0, false⟩ [⟨5, 5⟩]
    ⟨[⟨3, 1⟩, ⟨2, 1⟩, ⟨1, 1⟩], ⟨1, 0⟩, 20, 20, ⟨5, 5⟩, 1, false⟩ ⟨2, 1⟩ [⟨1, 1⟩]
    rfl (by decide) (by decide)

/-- C4 counterexample: `init_snake` does NOT route the food through
`next_food_pos`; with direction outcome 0 (Up), start cell (0,0) and raw food
sample (0,0) — all in-range outcomes of the random choices — the food cell
lies on the initial body. -/
theorem init_food_on_body_counterexample :
    (init_snake 0 0 0 0 0).food_pos ∈ (init_snake 0 0 0 0 0).body := by decide

/-- C4 amended: `init_snake` stores the raw uniform sample (lines 145-146 of
src/main.c) as the food position, without consulting the body, so the food may
coincide with a body cell. -/
theorem init_food_raw_sample (dirIdx sx sy fx fy : Nat) :
    (init_snake dirIdx sx sy fx fy).food_pos = ⟨(fx : Int), (fy : Int)⟩ := rfl

/-- C5: whenever `next_food_pos` returns a cell, that cell is not contained
in the body; and a sampled candidate that collides with some body cell makes
the routine resample a fresh candidate (the collision scan terminates the
current candidate rather than merely skipping to the next body cell). -/
theorem next_food_pos_valid :
    (∀ (body samples : List Vec2) (c : Vec2), next_food_pos body samples = some c → c ∉ body) ∧
    (∀ (body : List Vec2) (cand : Vec2) (rest : List Vec2), cand ∈ body →
      next_food_pos body (cand :: rest) = next_food_pos body rest) := by
  constructor
  · intro body samples
    induction samples with
    | nil => intro c h; exact Option.noConfusion h
    | cons a rest ih =>
      intro c h
      rw [next_food_pos] at h
      by_cases ha : a ∈ body
      · rw [if_pos ha] at h
        exact ih c h
      · rw [if_neg ha] at h
        rw [← Option.some.inj h]
        exact ha
  · intro body cand rest hc
    rw [next_food_pos, if_pos hc]

/-- Witness for C5: with body [(0,0)], the colliding sample (0,0) is skipped
by resampling and the returned cell (1,1) is off the body. -/
theorem next_food_pos_valid_witness :
    (⟨1, 1⟩ : Vec2) ∉ [(⟨0, 0⟩ : Vec2)] ∧
    next_food_pos [⟨0, 0⟩] [⟨0, 0⟩, ⟨1, 1⟩] = next_food_pos [⟨0, 0⟩] [⟨1, 1⟩] :=
  ⟨next_food_pos_valid.1 [⟨0, 0⟩] [⟨0, 0⟩, ⟨1, 1⟩] ⟨1, 1⟩ (by decide),
    next_food_pos_valid.2 [⟨0, 0⟩] ⟨0, 0⟩ [⟨1, 1⟩] (by decide)⟩

/-- C6 counterexample: one pacer evaluation with 500 ms accumulated performs
one step but subtracts only one 50 ms interval, leaving 450 ms — which still
exceeds the tick interval, so the very next evaluation (even with no new
elapsed time) steps again: the backlog is retained, not dropped. -/
theorem pacer_backlog_counterexample :
    pacer_eval false 500 = (450, 1) ∧ 50 < (450 : Rat) ∧ pacer_eval false 450 = (400, 1) := by
  refine ⟨?_, by norm_num, ?_⟩ <;> rw [pacer_eval, if_pos ⟨rfl, by norm_num⟩] <;> norm_num

/-- C6 amended: a pacer evaluation that finds the accumulator above the 50 ms
tick interval invokes exactly one `move_snake` and subtracts exactly one 50 ms
interval; the remaining backlog stays in the accumulator (and yields one
catch-up step per subsequent evaluation until drained) instead of being
dropped.  An evaluation at or below the interval does nothing. -/
theorem pacer_one_step (acc : Rat) :
    (50 < acc → pacer_eval false acc = (acc - 50, 1)) ∧
    (acc ≤ 50 → pacer_eval false acc = (acc, 0)) := by
  constructor
  · intro h
    rw [pacer_eval, if_pos ⟨rfl, h⟩]
  · intro h
    rw [pacer_eval, if_neg]
    rintro ⟨-, h2⟩
    exact absurd h2 (not_lt.mpr h)

/-- Witness for C6 amended: at 60 ms accumulated, one evaluation steps once
and leaves 10 ms. -/
theorem pacer_one_step_witness : pacer_eval false 60 = ((60 : Rat) - 50, 1) :=
  (pacer_one_step 60).1 (by norm_num)

/-- C8: starting from the gate state set at a completed tick, any sequence of
direction-change requests issued before the next tick results in at most one
accepted (gate-consuming) change; and a request for the exact reverse of the
current direction (checked per axis, e.g. Up while moving Down) is always
rejected and leaves the state unchanged. -/
theorem throttle_correct :
    (∀ (d : Vec2) (keys : List Key), accepted_count (true, d) keys ≤ 1) ∧
    (∀ (b : Bool) (d : Vec2),
      (d.y = 1 → apply_key (b, d) Key.up = (b, d)) ∧
      (d.y = -1 → apply_key (b, d) Key.down = (b, d)) ∧
      (d.x = 1 → apply_key (b, d) Key.left = (b, d)) ∧
      (d.x = -1 → apply_key (b, d) Key.right = (b, d))) := by
  constructor
  · intro d keys
    exact accepted_count_le_one keys d
  · intro b d
    refine ⟨?_, ?_, ?_, ?_⟩ <;> intro h <;> simp only [apply_key] <;> rw [if_neg] <;>
      rintro ⟨-, hne⟩ <;> exact hne h

/-- Witness for C8: while moving Down `(0,1)`, two requests Up-then-Up yield
at most one accepted change, and a single Up request (the exact reverse) is
rejected outright. -/
theorem throttle_correct_witness :
    accepted_count (true, ⟨0, 1⟩) [Key.up, Key.up] ≤ 1 ∧
    apply_key (true, ⟨0, 1⟩) Key.up = (true, ⟨0, 1⟩) :=
  ⟨throttle_correct.1 ⟨0, 1⟩ [Key.up, Key.up],
    (throttle_correct.2 true ⟨0, 1⟩).1 rfl⟩

/-- C9: in every reachable state the body length equals the initial length 10
plus the current score (in particular the body is never empty, so the tail
pop never runs on an empty body), and the score never decreases across a
step. -/
theorem body_length_score_invariant :
    (∀ s : Snake, Reachable s → s.body.length = 10 + s.score ∧ s.body ≠ []) ∧
    (∀ (s : Snake) (samples : List Vec2) (s' : Snake),
      move_snake s samples = some s' → s.score ≤ s'.score) := by
  constructor
  · intro s h
    have hl := reachable_length s h
    refine ⟨hl, ?_⟩
    have : 0 < s.body.length := by omega
    exact List.ne_nil_of_length_pos this
  · intro s samples s' hs
    rcases step_length_score hs with ⟨-, hsc⟩ | ⟨-, hsc⟩
    · rw [hsc]
    · rw [hsc]
      exact Nat.le_succ _

/-- Witness for C9: the initial state with all outcomes 0 has body length
10 = 10 + score and a nonempty body. -/
theorem body_length_score_invariant_witness :
    (init_snake 0 0 0 0 0).body.length = 10 + (init_snake 0 0 0 0 0).score ∧
      (init_snake 0 0 0 0 0).body ≠ [] :=
  body_length_score_invariant.1 (init_snake 0 0 0 0 0)
    (Reachable.init 0 0 0 0 0 (by decide) (by decide) (by decide) (by decide) (by decide))

/-- C10: a direction-change request equal to the current direction of travel
passes the per-axis reverse check and is accepted: the direction is unchanged
but the gate is consumed, so every subsequent request before the next tick
(including perpendicular ones) is ignored. -/
theorem same_direction_consumes_gate :
    ∀ k : Key, apply_key (true, dir_of_key k) k = (false, dir_of_key k) ∧
      ∀ k' : Key, apply_key (false, dir_of_key k) k' = (false, dir_of_key k) := by
  intro k
  cases k <;> exact ⟨by decide, fun k' => by cases k' <;> decide⟩
